import Mathlib

/-!
# Verification of `src/tf/TFClient.js` (roslibjs TF client)

Shallow embedding of the TF client from `src/src/tf/TFClient.js`.

The client is single-threaded and event-driven.  We model a client instance
as a `TFClient` state record and every entry point of the source file as a
pure function `TFClient → inputs → TFClient × List Effect`, where an
`Effect` records each externally visible action the JavaScript code performs
(invoking a user callback, arming a `setTimeout` timer, issuing the
aggregate service request, subscribing to or unsubscribing from a topic).

JavaScript specifics embedded explicitly:
* `this.frameInfos` is a plain object used as a string-keyed map; property
  insertion order is preserved and `for (var frame in ...)` iterates in that
  order, so it is modelled as an association list (`List (String × FrameInfo)`)
  where fresh keys are appended at the end.
* callbacks are compared by reference (`indexOf`); we model a callback as an
  opaque identifier (`Nat`).
* `options.x || default` falls back to the default on any falsy value
  (absent, `0`, the empty string); numbers are modelled as `Rat`.
* `Transform` (from `src/math/Transform.js`, not under `src/`) is a plain
  value object holding the given translation and rotation; constructing
  `new Transform({translation: t, rotation: r})` yields the value `⟨t, r⟩`.
-/

set_option autoImplicit false

namespace TFSpec

/-- A 3-vector of numeric components (translation part of a transform). -/
structure Vector3 where
  x : Rat
  y : Rat
  z : Rat
  deriving DecidableEq, Repr

/-- A quaternion (rotation part of a transform). -/
structure Quaternion where
  x : Rat
  y : Rat
  z : Rat
  w : Rat
  deriving DecidableEq, Repr

/-- A transform value: translation plus rotation, as built by
`new Transform({translation, rotation})`. -/
structure Transform where
  translation : Vector3
  rotation : Quaternion
  deriving DecidableEq, Repr

/-- The per-frame bookkeeping record stored in `this.frameInfos[frameID]`:
an ordered callback list and the optional cached last-known transform
(`undefined` until the first feedback message, modelled as `none`). -/
structure FrameInfo where
  cbs : List Nat
  transform : Option Transform
  deriving DecidableEq, Repr

/-- The `timeout` field sent to the republisher:
`{secs: Math.floor(seconds), nsecs: Math.floor((seconds-secs)*1e9)}`. -/
structure Timeout where
  secs : Int
  nsecs : Int
  deriving DecidableEq, Repr

/-- The payload built by `updateGoal` and passed to
`serviceClient.callService` (`tf2_web_republisher/RepublishTFs` request). -/
structure ServiceRequest where
  source_frames : List String
  target_frame : String
  angular_thres : Rat
  trans_thres : Rat
  rate : Rat
  timeout : Timeout
  deriving DecidableEq, Repr

/-- Externally visible actions of the client. -/
inductive Effect where
  /-- A user callback is invoked (synchronously) with a transform. -/
  | callbackInvoked (cb : Nat) (t : Transform)
  /-- `setTimeout(this.updateGoal.bind(this), delay)` is armed. -/
  | scheduleTimer (delay : Rat)
  /-- `serviceClient.callService(request, ...)`: the aggregate request. -/
  | sendRequest (request : ServiceRequest)
  /-- `currentTopic.unsubscribe()` on the previously attached stream. -/
  | topicUnsubscribe (name : String)
  /-- `Topic({name, ...}).subscribe(...)`: a new stream is attached. -/
  | topicSubscribe (name : String)
  deriving DecidableEq, Repr

/-- The state of one `TFClient` instance (its mutable fields). -/
structure TFClient where
  fixedFrame : String
  angularThres : Rat
  transThres : Rat
  rate : Rat
  goalUpdateDelay : Rat
  topicTimeout : Timeout
  /-- `this.currentTopic`: `false` initially, later the attached topic;
  modelled by the topic's name. -/
  currentTopic : Option String
  /-- `this.frameInfos`: insertion-ordered string-keyed map. -/
  frameInfos : List (String × FrameInfo)
  goalUpdateRequested : Bool
  /-- `this.needUpdate`: never initialised (undefined, falsy) until
  `unsubscribe` sets it; modelled as `Bool` starting `false`. -/
  needUpdate : Bool
  deriving DecidableEq, Repr

/-- The recognised constructor options.  `none` models an absent property. -/
structure TFClientOptions where
  fixedFrame : Option String := none
  angularThres : Option Rat := none
  transThres : Option Rat := none
  rate : Option Rat := none
  goalUpdateDelay : Option Rat := none
  topicTimeout : Option Rat := none

/-- JavaScript `v || d` for a numeric option: any falsy value (absent or
`0`) yields the default. -/
def jsOrNum (v : Option Rat) (d : Rat) : Rat :=
  match v with
  | some x => if x = 0 then d else x
  | none => d

/-- JavaScript `v || d` for a string option: any falsy value (absent or
the empty string) yields the default. -/
def jsOrStr (v : Option String) (d : String) : String :=
  match v with
  | some s => if s = "" then d else s
  | none => d

/-- The rational `0.01`, the source's default `transThres` literal, given
as a reduced numerator/denominator pair so that it evaluates by kernel
reduction. -/
def ratPointZeroOne : Rat := ⟨1, 100, by norm_num, Nat.coprime_one_left 100⟩

/-- `var secs = Math.floor(seconds); var nsecs = Math.floor((seconds -
secs) * 1000000000);` computed on exact rationals via numerator and
denominator (see `jsTimeout_secs_eq_floor` and `jsTimeout_nsecs_eq_floor`:
this is exactly `⌊seconds⌋` and `⌊(seconds - secs) * 10^9⌋`). -/
def jsTimeout (seconds : Rat) : Timeout :=
  let secs : Int := seconds.num / (seconds.den : Int)
  let nsecs : Int :=
    ((seconds.num - secs * (seconds.den : Int)) * 1000000000) / (seconds.den : Int)
  ⟨secs, nsecs⟩

/-- The `TFClient` constructor (lines 23–48 of the source). -/
def TFClient.create (options : TFClientOptions) : TFClient :=
  let seconds := jsOrNum options.topicTimeout 2
  { fixedFrame := jsOrStr options.fixedFrame "/base_link"
    angularThres := jsOrNum options.angularThres 2
    transThres := jsOrNum options.transThres ratPointZeroOne
    rate := jsOrNum options.rate 10
    goalUpdateDelay := jsOrNum options.goalUpdateDelay 50
    topicTimeout := jsTimeout seconds
    currentTopic := none
    frameInfos := []
    goalUpdateRequested := false
    needUpdate := false }

/-- `if (frameID[0] === '/') { frameID = frameID.substring(1); }` -/
def stripSlash (s : String) : String :=
  match s.data with
  | [] => s
  | c :: rest => if c = '/' then String.mk rest else s

/-- `frameID[0] === '/'` as a test on its own. -/
def beginsWithSlash (s : String) : Bool :=
  match s.data with
  | [] => false
  | c :: _ => c = '/'

/-- Lookup in the insertion-ordered object (`this.frameInfos[k]`). -/
def alistGet (l : List (String × FrameInfo)) (k : String) : Option FrameInfo :=
  match l with
  | [] => none
  | (k', v) :: rest => if k' = k then some v else alistGet rest k

/-- Assignment to an existing key keeps its position in the object. -/
def alistSet (l : List (String × FrameInfo)) (k : String) (v : FrameInfo) :
    List (String × FrameInfo) :=
  match l with
  | [] => []
  | (k', v') :: rest =>
      if k' = k then (k', v) :: rest else (k', v') :: alistSet rest k v

/-- `delete this.frameInfos[k]`. -/
def alistErase (l : List (String × FrameInfo)) (k : String) :
    List (String × FrameInfo) :=
  match l with
  | [] => []
  | (k', v') :: rest => if k' = k then rest else (k', v') :: alistErase rest k

/-- `this.frameInfos[fid].cbs.push(callback)`. -/
def pushCb (st : TFClient) (fid : String) (callback : Nat) : TFClient :=
  { st with
      frameInfos :=
        match alistGet st.frameInfos fid with
        | some info =>
            alistSet st.frameInfos fid { info with cbs := info.cbs ++ [callback] }
        | none => st.frameInfos }

/-- `TFClient.prototype.subscribe` (lines 124–145). -/
def subscribe (st : TFClient) (frameID : String) (callback : Nat) :
    TFClient × List Effect :=
  let fid := stripSlash frameID
  match alistGet st.frameInfos fid with
  | none =>
      let st1 := { st with frameInfos := st.frameInfos ++ [(fid, ⟨[], none⟩)] }
      if st.goalUpdateRequested then
        (pushCb st1 fid callback, [])
      else
        (pushCb { st1 with goalUpdateRequested := true } fid callback,
         [Effect.scheduleTimer st.goalUpdateDelay])
  | some info =>
      match info.transform with
      | some t => (pushCb st fid callback, [Effect.callbackInvoked callback t])
      | none => (pushCb st fid callback, [])

/-- Remove the first occurrence (`indexOf` + `splice(idx, 1)`). -/
def removeFirst (l : List Nat) (x : Nat) : List Nat :=
  match l with
  | [] => []
  | y :: rest => if y = x then rest else y :: removeFirst rest x

/-- `TFClient.prototype.unsubscribe` (lines 153–169). -/
def unsubscribe (st : TFClient) (frameID : String) (callback : Nat) :
    TFClient × List Effect :=
  let fid := stripSlash frameID
  match alistGet st.frameInfos fid with
  | none => (st, [])
  | some info =>
      if callback ∈ info.cbs then
        let newCbs := removeFirst info.cbs callback
        let st1 :=
          if newCbs = [] then
            { st with frameInfos := alistErase st.frameInfos fid }
          else
            { st with frameInfos := alistSet st.frameInfos fid ⟨newCbs, info.transform⟩ }
        ({ st1 with needUpdate := true }, [])
      else (st, [])

/-- `TFClient.prototype.updateGoal` (lines 80–95): runs when the armed
`setTimeout` fires; sends the aggregate request naming every tracked frame
(in object-key insertion order) and clears `goalUpdateRequested`. -/
def updateGoal (st : TFClient) : TFClient × List Effect :=
  let request : ServiceRequest :=
    { source_frames := st.frameInfos.map Prod.fst
      target_frame := st.fixedFrame
      angular_thres := st.angularThres
      trans_thres := st.transThres
      rate := st.rate
      timeout := st.topicTimeout }
  ({ st with goalUpdateRequested := false }, [Effect.sendRequest request])

/-- `TFClient.prototype.processResponse` (lines 103–115): unsubscribes the
previous stream topic (if any) before attaching the new one. -/
def processResponse (st : TFClient) (topic_name : String) :
    TFClient × List Effect :=
  let pre : List Effect :=
    match st.currentTopic with
    | some old => [Effect.topicUnsubscribe old]
    | none => []
  ({ st with currentTopic := some topic_name },
   pre ++ [Effect.topicSubscribe topic_name])

/-- One element of the `transforms` array of a stream message. -/
structure TransformUpdate where
  child_frame_id : String
  transform : Transform
  deriving DecidableEq, Repr

/-- The body of the `forEach` in `processFeedback`: one per-frame update
applied to the running state/effects accumulator. -/
def applyTransformUpdate (acc : TFClient × List Effect) (u : TransformUpdate) :
    TFClient × List Effect :=
  let fid := stripSlash u.child_frame_id
  match alistGet acc.1.frameInfos fid with
  | none => acc
  | some info =>
      let newT := u.transform
      let st' :=
        { acc.1 with frameInfos := alistSet acc.1.frameInfos fid ⟨info.cbs, some newT⟩ }
      (st', acc.2 ++ info.cbs.map (fun cb => Effect.callbackInvoked cb newT))

/-- `TFClient.prototype.processFeedback` (lines 56–74). -/
def processFeedback (st : TFClient) (transforms : List TransformUpdate) :
    TFClient × List Effect :=
  transforms.foldl applyTransformUpdate (st, [])

/-- The events a client instance can receive, in its single-threaded
event loop. -/
inductive TFEvent where
  | sub (frameID : String) (cb : Nat)
  | unsub (frameID : String) (cb : Nat)
  /-- an armed `setTimeout(updateGoal)` fires -/
  | timerFire
  /-- the aggregate request's response arrives, carrying `topic_name` -/
  | response (topic_name : String)
  /-- a stream message arrives, carrying a list of per-frame updates -/
  | feedback (transforms : List TransformUpdate)

/-- Dispatch one event. -/
def step (st : TFClient) : TFEvent → TFClient × List Effect
  | .sub f cb => subscribe st f cb
  | .unsub f cb => unsubscribe st f cb
  | .timerFire => updateGoal st
  | .response t => processResponse st t
  | .feedback tfs => processFeedback st tfs

/-- Run a sequence of events, concatenating the emitted effects. -/
def run (st : TFClient) : List TFEvent → TFClient × List Effect
  | [] => (st, [])
  | e :: es =>
      let r := step st e
      let r' := run r.1 es
      (r'.1, r.2 ++ r'.2)

/-- Invariant: every tracked frame entry holds at least one callback. -/
abbrev InvCbs (st : TFClient) : Prop :=
  ∀ p ∈ st.frameInfos, p.2.cbs ≠ []

/-- Invariant: the object's keys are unique (JavaScript objects cannot
hold two properties with the same name). -/
abbrev KeysNodup (st : TFClient) : Prop :=
  (st.frameInfos.map Prod.fst).Nodup

/-- A concrete transform used by the witnesses (translation `(1,0,0)`,
rotation `(0,0,0,1)`). -/
def wTransform : Transform := ⟨⟨1, 0, 0⟩, ⟨0, 0, 0, 1⟩⟩

/-- A concrete client already tracking `"a"` with a cached transform. -/
def wCachedClient : TFClient :=
  { TFClient.create {} with frameInfos := [("a", ⟨[0], some wTransform⟩)] }

/-- A concrete client tracking `"wheel"` with two callbacks and no cached
transform yet. -/
def wWheelClient : TFClient :=
  { TFClient.create {} with frameInfos := [("wheel", ⟨[0, 1], none⟩)] }

/-- Sanity: the literal `ratPointZeroOne` is the rational `0.01`. -/
theorem ratPointZeroOne_eq : ratPointZeroOne = 0.01 := by
  rw [ratPointZeroOne]
  norm_num [Rat.mk'_eq_divInt, Rat.divInt_eq_div]

/-- Sanity: `jsTimeout`'s `secs` is `Math.floor(seconds)`. -/
theorem jsTimeout_secs_eq_floor (seconds : Rat) :
    (jsTimeout seconds).secs = ⌊seconds⌋ := by
  rw [jsTimeout, Rat.floor_def]

/-- Sanity: `jsTimeout`'s `nsecs` is `Math.floor((seconds - secs) * 1e9)`. -/
theorem jsTimeout_nsecs_eq_floor (seconds : Rat) :
    (jsTimeout seconds).nsecs = ⌊(seconds - (⌊seconds⌋ : Rat)) * 1000000000⌋ := by
  obtain ⟨n, d, hd, hred⟩ := seconds
  have hdQ : ((d : Rat)) ≠ 0 := by exact_mod_cast hd
  have hq : (Rat.mk' n d hd hred : Rat) = (n : Rat) / (d : Rat) := by
    rw [Rat.mk'_eq_divInt, Rat.divInt_eq_div]
    push_cast
    ring
  have hfloor : ⌊Rat.mk' n d hd hred⌋ = n / (d : Int) := Rat.floor_def
  have key : ∀ c : Int,
      ((n : Rat) / (d : Rat) - (c : Rat)) * 1000000000 =
        (((n - c * d) * 1000000000 : Int) : Rat) / ((d : Nat) : Rat) := by
    intro c
    push_cast
    field_simp
    ring
  rw [jsTimeout]
  conv_rhs => rw [hfloor, hq, key (n / (d : Int)), Rat.floor_intCast_div_natCast]

/-! ## Helper lemmas about the association-list object model -/

theorem alistGet_append_of_none {l : List (String × FrameInfo)} {k : String}
    (l' : List (String × FrameInfo)) (h : alistGet l k = none) :
    alistGet (l ++ l') k = alistGet l' k := by
  induction l with
  | nil => simp [alistGet]
  | cons p rest ih =>
      obtain ⟨k', v⟩ := p
      by_cases hk : k' = k
      · simp [alistGet, hk] at h
      · simp only [List.cons_append, alistGet, if_neg hk] at h ⊢
        exact ih h

theorem alistGet_append_of_some {l : List (String × FrameInfo)} {k : String}
    {v : FrameInfo} (l' : List (String × FrameInfo)) (h : alistGet l k = some v) :
    alistGet (l ++ l') k = some v := by
  induction l with
  | nil => simp [alistGet] at h
  | cons p rest ih =>
      obtain ⟨k', v'⟩ := p
      by_cases hk : k' = k
      · simp only [List.cons_append, alistGet, if_pos hk] at h ⊢
        exact h
      · simp only [List.cons_append, alistGet, if_neg hk] at h ⊢
        exact ih h

theorem alistGet_singleton (k k' : String) (v : FrameInfo) :
    alistGet [(k, v)] k' = if k = k' then some v else none := by
  simp [alistGet]

theorem alistSet_append_singleton_of_none {l : List (String × FrameInfo)}
    {k : String} (h : alistGet l k = none) (v w : FrameInfo) :
    alistSet (l ++ [(k, v)]) k w = l ++ [(k, w)] := by
  induction l with
  | nil => simp [alistSet]
  | cons p rest ih =>
      obtain ⟨k', v'⟩ := p
      by_cases hk : k' = k
      · simp [alistGet, hk] at h
      · simp only [alistGet, if_neg hk] at h
        simp only [List.cons_append, alistSet, if_neg hk, List.append_eq]
        rw [ih h]

/-- Every entry of `alistSet l k v` is an entry of `l` or is `(k, v)`. -/
theorem mem_alistSet {l : List (String × FrameInfo)} {k : String}
    {v : FrameInfo} {p : String × FrameInfo} (h : p ∈ alistSet l k v) :
    p ∈ l ∨ p = (k, v) := by
  induction l with
  | nil => simp [alistSet] at h
  | cons q rest ih =>
      obtain ⟨k', v'⟩ := q
      by_cases hk : k' = k
      · simp only [alistSet, if_pos hk, List.mem_cons] at h
        rcases h with h | h
        · right; rw [h, hk]
        · left; exact List.mem_cons_of_mem _ h
      · simp only [alistSet, if_neg hk, List.mem_cons] at h
        rcases h with h | h
        · left; rw [h]; exact List.mem_cons_self _ _
        · rcases ih h with h' | h'
          · left; exact List.mem_cons_of_mem _ h'
          · right; exact h'

/-- Every entry of `alistErase l k` is an entry of `l`. -/
theorem mem_alistErase {l : List (String × FrameInfo)} {k : String}
    {p : String × FrameInfo} (h : p ∈ alistErase l k) : p ∈ l := by
  induction l with
  | nil => simp [alistErase] at h
  | cons q rest ih =>
      obtain ⟨k', v'⟩ := q
      by_cases hk : k' = k
      · simp only [alistErase, if_pos hk] at h
        exact List.mem_cons_of_mem _ h
      · simp only [alistErase, if_neg hk, List.mem_cons] at h
        rcases h with h | h
        · rw [h]; exact List.mem_cons_self _ _
        · exact List.mem_cons_of_mem _ (ih h)

/-! ## Characterisations of `subscribe` -/

/-- `subscribe` on a frame that is not yet tracked: a fresh entry holding
exactly the new callback and no cached transform is appended, the goal
update flag ends up `true`, and a timer is armed iff none was pending. -/
theorem subscribe_not_tracked (st : TFClient) (frameID : String) (callback : Nat)
    (h : alistGet st.frameInfos (stripSlash frameID) = none) :
    subscribe st frameID callback =
      ({ st with
          frameInfos :=
            st.frameInfos ++ [(stripSlash frameID, ⟨[callback], none⟩)],
          goalUpdateRequested := true },
       if st.goalUpdateRequested then []
       else [Effect.scheduleTimer st.goalUpdateDelay]) := by
  have hget : alistGet (st.frameInfos ++ [(stripSlash frameID, ⟨[], none⟩)])
      (stripSlash frameID) = some ⟨[], none⟩ := by
    rw [alistGet_append_of_none _ h, alistGet_singleton, if_pos rfl]
  have hset : alistSet (st.frameInfos ++ [(stripSlash frameID, ⟨[], none⟩)])
      (stripSlash frameID) ⟨[callback], none⟩ =
      st.frameInfos ++ [(stripSlash frameID, ⟨[callback], none⟩)] :=
    alistSet_append_singleton_of_none h _ _
  cases hreq : st.goalUpdateRequested <;>
    simp [subscribe, h, pushCb, hget, hset, hreq]

/-- `subscribe` on an already-tracked frame: the callback is appended to
the entry's list; if a cached transform exists it is delivered
synchronously to the new callback (and only to it), otherwise no callback
runs. -/
theorem subscribe_tracked (st : TFClient) (frameID : String) (callback : Nat)
    (info : FrameInfo)
    (h : alistGet st.frameInfos (stripSlash frameID) = some info) :
    subscribe st frameID callback =
      ({ st with
          frameInfos :=
            alistSet st.frameInfos (stripSlash frameID)
              ⟨info.cbs ++ [callback], info.transform⟩ },
       match info.transform with
       | some t => [Effect.callbackInvoked callback t]
       | none => []) := by
  cases htr : info.transform <;>
    simp [subscribe, h, htr, pushCb]

/-! ## Lemmas about `run` -/

theorem run_append (st : TFClient) (l1 l2 : List TFEvent) :
    run st (l1 ++ l2) =
      ((run (run st l1).1 l2).1, (run st l1).2 ++ (run (run st l1).1 l2).2) := by
  induction l1 generalizing st with
  | nil => simp [run]
  | cons e es ih =>
      rw [List.cons_append]
      simp only [run]
      rw [ih (step st e).1]
      simp [List.append_assoc]

/-- Running one `subscribe` event per element of `frames`, all of them for
distinct, not-yet-tracked frames: every entry is appended in order, the
goal-update flag ends `true`, and at most one timer is armed (none when one
was already pending). -/
theorem run_subs_not_tracked (frames : List (String × Nat)) :
    ∀ st : TFClient,
      (frames.map fun p => stripSlash p.1).Nodup →
      (∀ p ∈ frames, alistGet st.frameInfos (stripSlash p.1) = none) →
      run st (frames.map fun p => TFEvent.sub p.1 p.2) =
        ({ st with
            frameInfos := st.frameInfos ++
              (frames.map fun p => (stripSlash p.1, ⟨[p.2], none⟩)),
            goalUpdateRequested := st.goalUpdateRequested || !frames.isEmpty },
         if st.goalUpdateRequested || frames.isEmpty then []
         else [Effect.scheduleTimer st.goalUpdateDelay]) := by
  induction frames with
  | nil =>
      intro st _ _
      cases st
      simp [run]
  | cons p rest ih =>
      obtain ⟨f, cb⟩ := p
      intro st hnodup hnew
      have hhead : alistGet st.frameInfos (stripSlash f) = none :=
        hnew (f, cb) (List.mem_cons_self _ _)
      have hnodup' : (rest.map fun p => stripSlash p.1).Nodup := by
        simp only [List.map_cons, List.nodup_cons] at hnodup
        exact hnodup.2
      have hnotin : ∀ q ∈ rest, ¬(stripSlash f = stripSlash q.1) := by
        intro q hq heq
        simp only [List.map_cons, List.nodup_cons] at hnodup
        exact hnodup.1 (heq ▸ List.mem_map_of_mem _ hq)
      have hnew' : ∀ q ∈ rest,
          alistGet (st.frameInfos ++ [(stripSlash f, ⟨[cb], none⟩)])
            (stripSlash q.1) = none := by
        intro q hq
        rw [alistGet_append_of_none _ (hnew q (List.mem_cons_of_mem _ hq)),
          alistGet_singleton, if_neg (hnotin q hq)]
      have hrest := ih
        { st with
            frameInfos := st.frameInfos ++ [(stripSlash f, ⟨[cb], none⟩)],
            goalUpdateRequested := true } hnodup' hnew'
      simp only [List.map_cons, run, step, subscribe_not_tracked st f cb hhead]
      rw [hrest]
      cases hreq : st.goalUpdateRequested <;>
        simp [List.append_assoc, List.isEmpty]

/-- Claim C1: from a state with no pending goal update, subscribing `N ≥ 1`
distinct untracked frames and then letting the debounce timer fire emits
exactly one `scheduleTimer` (the first subscribe; later ones do not re-arm
it) and exactly one aggregate `sendRequest`, whose `source_frames` lists
every previously tracked frame followed by all `N` normalized new frame
ids. -/
theorem claim1_coalesced_single_request (st : TFClient)
    (frames : List (String × Nat))
    (hreq : st.goalUpdateRequested = false)
    (hne : frames ≠ [])
    (hnodup : (frames.map fun p => stripSlash p.1).Nodup)
    (hnew : ∀ p ∈ frames, alistGet st.frameInfos (stripSlash p.1) = none) :
    (run st ((frames.map fun p => TFEvent.sub p.1 p.2) ++ [TFEvent.timerFire])).2 =
      [Effect.scheduleTimer st.goalUpdateDelay,
       Effect.sendRequest
         { source_frames :=
             st.frameInfos.map Prod.fst ++ (frames.map fun p => stripSlash p.1)
           target_frame := st.fixedFrame
           angular_thres := st.angularThres
           trans_thres := st.transThres
           rate := st.rate
           timeout := st.topicTimeout }] := by
  have hne' : frames.isEmpty = false := by
    cases frames with
    | nil => exact absurd rfl hne
    | cons a l => rfl
  rw [run_append, run_subs_not_tracked frames st hnodup hnew]
  simp [run, step, updateGoal, hreq, hne', List.map_map, Function.comp]

/-- Witness for C1: two subscribes (one with a leading slash) inside one
debounce window, then the timer fires: one timer, one request naming both
frames. -/
theorem claim1_witness :
    (run (TFClient.create {})
        [TFEvent.sub "/a" 0, TFEvent.sub "b" 1, TFEvent.timerFire]).2 =
      [Effect.scheduleTimer 50,
       Effect.sendRequest
         { source_frames := ["a", "b"]
           target_frame := "/base_link"
           angular_thres := 2
           trans_thres := ratPointZeroOne
           rate := 10
           timeout := ⟨2, 0⟩ }] := by
  have h := claim1_coalesced_single_request (TFClient.create {})
    [("/a", 0), ("b", 1)] (by decide) (by decide) (by decide) (by decide)
  exact h

/-- Claim C2: subscribing to an already-tracked frame appends the callback
to the entry's list; if the entry caches a transform the new callback is
invoked synchronously with it, exactly once (the call's only effect);
if the entry caches none, no callback is invoked. -/
theorem claim2_cached_transform_delivered (st : TFClient) (frameID : String)
    (cb : Nat) (info : FrameInfo)
    (h : alistGet st.frameInfos (stripSlash frameID) = some info) :
    (∀ t, info.transform = some t →
        subscribe st frameID cb =
          ({ st with
              frameInfos := alistSet st.frameInfos (stripSlash frameID)
                ⟨info.cbs ++ [cb], some t⟩ },
           [Effect.callbackInvoked cb t])) ∧
    (info.transform = none →
        subscribe st frameID cb =
          ({ st with
              frameInfos := alistSet st.frameInfos (stripSlash frameID)
                ⟨info.cbs ++ [cb], none⟩ },
           [])) := by
  constructor
  · intro t ht
    rw [subscribe_tracked st frameID cb info h, ht]
  · intro ht
    rw [subscribe_tracked st frameID cb info h, ht]

/-- Witness for C2: subscribing callback `7` to `"a"` on `wCachedClient`
invokes `7` immediately with the cached transform and appends it. -/
theorem claim2_witness :
    subscribe wCachedClient "a" 7 =
      ({ wCachedClient with frameInfos := [("a", ⟨[0, 7], some wTransform⟩)] },
       [Effect.callbackInvoked 7 wTransform]) := by
  have h := (claim2_cached_transform_delivered wCachedClient "a" 7
    ⟨[0], some wTransform⟩ (by decide)).1 wTransform rfl
  exact h

/-- Accumulator lemma: one `forEach` step only appends to the effect log. -/
theorem applyTransformUpdate_acc (acc : TFClient × List Effect)
    (u : TransformUpdate) :
    applyTransformUpdate acc u =
      ((applyTransformUpdate (acc.1, []) u).1,
       acc.2 ++ (applyTransformUpdate (acc.1, []) u).2) := by
  obtain ⟨st, effs⟩ := acc
  cases h : alistGet st.frameInfos (stripSlash u.child_frame_id) <;>
    simp [applyTransformUpdate, h]

/-- Accumulator lemma for the whole `forEach` fold. -/
theorem foldl_applyTransformUpdate_acc (tfs : List TransformUpdate) :
    ∀ (st : TFClient) (acc : List Effect),
      List.foldl applyTransformUpdate (st, acc) tfs =
        ((List.foldl applyTransformUpdate (st, []) tfs).1,
         acc ++ (List.foldl applyTransformUpdate (st, []) tfs).2) := by
  induction tfs with
  | nil => intro st acc; simp
  | cons u us ih =>
      intro st acc
      simp only [List.foldl_cons]
      rw [applyTransformUpdate_acc (st, acc) u]
      rw [ih (applyTransformUpdate (st, []) u).1
        (acc ++ (applyTransformUpdate (st, []) u).2)]
      rw [ih (applyTransformUpdate (st, []) u).1
        (applyTransformUpdate (st, []) u).2]
      simp [List.append_assoc]

/-- Claim C3: a per-frame update in a stream message strips one leading
slash from its child frame id; on a tracked frame it replaces the cached
transform and invokes every registered callback in registration order with
the new transform; on an untracked frame it changes nothing and invokes
nothing; and a multi-update message processes its updates sequentially,
concatenating their effects. -/
theorem claim3_feedback_dispatch (st : TFClient) (u : TransformUpdate) :
    (∀ info, alistGet st.frameInfos (stripSlash u.child_frame_id) = some info →
        processFeedback st [u] =
          ({ st with
              frameInfos := alistSet st.frameInfos (stripSlash u.child_frame_id)
                ⟨info.cbs, some u.transform⟩ },
           info.cbs.map fun cb => Effect.callbackInvoked cb u.transform)) ∧
    (alistGet st.frameInfos (stripSlash u.child_frame_id) = none →
        processFeedback st [u] = (st, [])) ∧
    (∀ us, processFeedback st (u :: us) =
        ((processFeedback (processFeedback st [u]).1 us).1,
         (processFeedback st [u]).2 ++
           (processFeedback (processFeedback st [u]).1 us).2)) := by
  refine ⟨?_, ?_, ?_⟩
  · intro info h
    simp [processFeedback, applyTransformUpdate, h]
  · intro h
    simp [processFeedback, applyTransformUpdate, h]
  · intro us
    simp only [processFeedback, List.foldl_cons, List.foldl_nil]
    exact foldl_applyTransformUpdate_acc us
      (applyTransformUpdate (st, []) u).1 (applyTransformUpdate (st, []) u).2

/-- Witness for C3: a stream update for `"/wheel"` while `"wheel"` is
tracked caches the new transform and calls both callbacks in order. -/
theorem claim3_witness :
    processFeedback wWheelClient [⟨"/wheel", wTransform⟩] =
      ({ wWheelClient with frameInfos := [("wheel", ⟨[0, 1], some wTransform⟩)] },
       [Effect.callbackInvoked 0 wTransform, Effect.callbackInvoked 1 wTransform]) := by
  have h := (claim3_feedback_dispatch wWheelClient ⟨"/wheel", wTransform⟩).1
    ⟨[0, 1], none⟩ (by decide)
  exact h

/-- Claim C5: `processResponse` attaches the stream named by the response;
when a stream from a prior response is active it is unsubscribed first
(the effect order is unsubscribe old, then subscribe new), and the state
holds at most one active stream (a single optional topic). -/
theorem claim5_single_active_stream (st : TFClient) (topic_name : String) :
    (st.currentTopic = none →
        processResponse st topic_name =
          ({ st with currentTopic := some topic_name },
           [Effect.topicSubscribe topic_name])) ∧
    (∀ old, st.currentTopic = some old →
        processResponse st topic_name =
          ({ st with currentTopic := some topic_name },
           [Effect.topicUnsubscribe old, Effect.topicSubscribe topic_name])) := by
  constructor
  · intro h
    simp [processResponse, h]
  · intro old h
    simp [processResponse, h]

/-- Witness for C5: a second response while topic `"t1"` is attached
unsubscribes `"t1"` before subscribing `"t2"`. -/
theorem claim5_witness :
    processResponse { TFClient.create {} with currentTopic := some "t1" } "t2" =
      ({ TFClient.create {} with currentTopic := some "t2" },
       [Effect.topicUnsubscribe "t1", Effect.topicSubscribe "t2"]) := by
  have h := (claim5_single_active_stream
    { TFClient.create {} with currentTopic := some "t1" } "t2").2 "t1" rfl
  exact h

/-- Claim C9: `unsubscribe` is a silent no-op (identical state, no effects)
when no entry exists for the normalized frame id, and likewise when the
entry exists but the callback is not in its list. -/
theorem claim9_unsubscribe_noop (st : TFClient) (frameID : String) (cb : Nat) :
    (alistGet st.frameInfos (stripSlash frameID) = none →
        unsubscribe st frameID cb = (st, [])) ∧
    (∀ info, alistGet st.frameInfos (stripSlash frameID) = some info →
        cb ∉ info.cbs → unsubscribe st frameID cb = (st, [])) := by
  constructor
  · intro h
    simp [unsubscribe, h]
  · intro info h hcb
    simp [unsubscribe, h, hcb]

/-- Witness for C9: unsubscribing an unknown frame, and unsubscribing an
unknown callback from a tracked frame, both leave the client unchanged. -/
theorem claim9_witness :
    unsubscribe (TFClient.create {}) "ghost" 0 = (TFClient.create {}, []) ∧
    unsubscribe wWheelClient "/wheel" 5 = (wWheelClient, []) := by
  constructor
  · exact (claim9_unsubscribe_noop (TFClient.create {}) "ghost" 0).1 (by decide)
  · exact (claim9_unsubscribe_noop wWheelClient "/wheel" 5).2 ⟨[0, 1], none⟩
      (by decide) (by decide)

/-! ## Invariant machinery for C6 -/

theorem mem_of_alistGet_eq_some {l : List (String × FrameInfo)} {k : String}
    {v : FrameInfo} (h : alistGet l k = some v) : (k, v) ∈ l := by
  induction l with
  | nil => simp [alistGet] at h
  | cons q rest ih =>
      obtain ⟨k', v'⟩ := q
      by_cases hk : k' = k
      · simp only [alistGet, if_pos hk, Option.some.injEq] at h
        rw [← hk, ← h]
        exact List.mem_cons_self _ _
      · simp only [alistGet, if_neg hk] at h
        exact List.mem_cons_of_mem _ (ih h)

theorem alistGet_eq_none_of_not_mem {l : List (String × FrameInfo)} {k : String}
    (h : k ∉ l.map Prod.fst) : alistGet l k = none := by
  induction l with
  | nil => rfl
  | cons q rest ih =>
      obtain ⟨k', v'⟩ := q
      simp only [List.map_cons, List.mem_cons] at h
      push_neg at h
      simp only [alistGet]
      rw [if_neg fun hh => h.1 hh.symm]
      exact ih h.2

theorem alistGet_alistErase_self {l : List (String × FrameInfo)} {k : String}
    (h : (l.map Prod.fst).Nodup) : alistGet (alistErase l k) k = none := by
  induction l with
  | nil => rfl
  | cons q rest ih =>
      obtain ⟨k', v'⟩ := q
      simp only [List.map_cons, List.nodup_cons] at h
      by_cases hk : k' = k
      · simp only [alistErase, if_pos hk]
        exact alistGet_eq_none_of_not_mem (hk ▸ h.1)
      · simp only [alistErase, if_neg hk, alistGet]
        exact ih h.2

theorem invCbs_applyTransformUpdate (acc : TFClient × List Effect)
    (u : TransformUpdate) (h : InvCbs acc.1) :
    InvCbs (applyTransformUpdate acc u).1 := by
  obtain ⟨st, effs⟩ := acc
  cases hget : alistGet st.frameInfos (stripSlash u.child_frame_id) with
  | none => simpa [applyTransformUpdate, hget] using h
  | some info =>
      intro p hp
      simp only [applyTransformUpdate, hget] at hp
      rcases mem_alistSet hp with h' | h'
      · exact h p h'
      · have hcbs : info.cbs ≠ [] :=
          h (stripSlash u.child_frame_id, info) (mem_of_alistGet_eq_some hget)
        rw [h']
        exact hcbs

theorem invCbs_foldl (tfs : List TransformUpdate) :
    ∀ acc : TFClient × List Effect, InvCbs acc.1 →
      InvCbs (List.foldl applyTransformUpdate acc tfs).1 := by
  induction tfs with
  | nil => intro acc h; exact h
  | cons u us ih =>
      intro acc h
      simp only [List.foldl_cons]
      exact ih _ (invCbs_applyTransformUpdate acc u h)

theorem invCbs_step (st : TFClient) (e : TFEvent) (h : InvCbs st) :
    InvCbs (step st e).1 := by
  cases e with
  | sub f cb =>
      cases hget : alistGet st.frameInfos (stripSlash f) with
      | none =>
          show InvCbs (subscribe st f cb).1
          rw [subscribe_not_tracked st f cb hget]
          intro p hp
          simp only at hp
          rcases List.mem_append.1 hp with h' | h'
          · exact h p h'
          · simp only [List.mem_singleton] at h'
            rw [h']
            simp
      | some info =>
          show InvCbs (subscribe st f cb).1
          rw [subscribe_tracked st f cb info hget]
          intro p hp
          simp only at hp
          rcases mem_alistSet hp with h' | h'
          · exact h p h'
          · rw [h']
            simp
  | unsub f cb =>
      show InvCbs (unsubscribe st f cb).1
      cases hget : alistGet st.frameInfos (stripSlash f) with
      | none => simpa [unsubscribe, hget] using h
      | some info =>
          by_cases hmem : cb ∈ info.cbs
          · by_cases hnil : removeFirst info.cbs cb = []
            · simp only [unsubscribe, hget, if_pos hmem, if_pos hnil]
              intro p hp
              simp only at hp
              exact h p (mem_alistErase hp)
            · simp only [unsubscribe, hget, if_pos hmem, if_neg hnil]
              intro p hp
              simp only at hp
              rcases mem_alistSet hp with h' | h'
              · exact h p h'
              · rw [h']
                exact hnil
          · simpa [unsubscribe, hget, hmem] using h
  | timerFire => exact h
  | response t => exact h
  | feedback tfs =>
      show InvCbs (processFeedback st tfs).1
      exact invCbs_foldl tfs (st, []) h

theorem invCbs_run (evs : List TFEvent) :
    ∀ st : TFClient, InvCbs st → InvCbs (run st evs).1 := by
  induction evs with
  | nil => intro st h; exact h
  | cons e es ih =>
      intro st h
      simp only [run]
      exact ih _ (invCbs_step st e h)

/-- Claim C6: (1) every event preserves "each tracked entry has at least
one callback", (2) hence every state reached from a fresh client by any
event sequence satisfies it (an entry exists iff it has a registered
callback), (3) unsubscribing the last callback of a frame deletes its
entry — cached transform included, and (4) a subsequent subscribe to that
frame is a first-time subscription: it stores exactly the new callback
with no cached transform and invokes no callback. -/
theorem claim6_entry_iff_callbacks :
    (∀ (st : TFClient) (e : TFEvent), InvCbs st → InvCbs (step st e).1) ∧
    (∀ (options : TFClientOptions) (evs : List TFEvent),
        InvCbs (run (TFClient.create options) evs).1) ∧
    (∀ (st : TFClient) (frameID : String) (cb : Nat) (info : FrameInfo),
        KeysNodup st →
        alistGet st.frameInfos (stripSlash frameID) = some info →
        info.cbs = [cb] →
        alistGet (unsubscribe st frameID cb).1.frameInfos (stripSlash frameID) =
          none) ∧
    (∀ (st : TFClient) (frameID : String) (cb : Nat),
        alistGet st.frameInfos (stripSlash frameID) = none →
        alistGet (subscribe st frameID cb).1.frameInfos (stripSlash frameID) =
          some ⟨[cb], none⟩ ∧
        ∀ cb' t, Effect.callbackInvoked cb' t ∉ (subscribe st frameID cb).2) := by
  refine ⟨invCbs_step, ?_, ?_, ?_⟩
  · intro options evs
    apply invCbs_run
    intro p hp
    simp [TFClient.create] at hp
  · intro st frameID cb info hnodup hget hcbs
    have hmem : cb ∈ info.cbs := by
      rw [hcbs]
      exact List.mem_singleton.2 rfl
    have hnil : removeFirst info.cbs cb = [] := by
      rw [hcbs]
      simp [removeFirst]
    simp only [unsubscribe, hget, if_pos hmem, if_pos hnil]
    exact alistGet_alistErase_self hnodup
  · intro st frameID cb hget
    rw [subscribe_not_tracked st frameID cb hget]
    constructor
    · simp only
      rw [alistGet_append_of_none _ hget, alistGet_singleton, if_pos rfl]
    · intro cb' t
      cases hreq : st.goalUpdateRequested <;> simp

/-- Witness for C6: unsubscribing the lone callback of `"a"` on
`wCachedClient` removes the entry; a fresh subscribe of callback `3` to
untracked `"b"` stores exactly `⟨[3], none⟩`; and the per-event invariant
holds across a concrete step. -/
theorem claim6_witness :
    alistGet (unsubscribe wCachedClient "a" 0).1.frameInfos "a" = none ∧
    alistGet (subscribe (TFClient.create {}) "b" 3).1.frameInfos "b" =
      some ⟨[3], none⟩ ∧
    InvCbs (step wWheelClient (TFEvent.sub "wheel" 9)).1 := by
  refine ⟨?_, ?_, ?_⟩
  · exact claim6_entry_iff_callbacks.2.2.1 wCachedClient "a" 0
      ⟨[0], some wTransform⟩ (by decide) (by decide) rfl
  · exact (claim6_entry_iff_callbacks.2.2.2 (TFClient.create {}) "b" 3
      (by decide)).1
  · exact claim6_entry_iff_callbacks.1 wWheelClient (TFEvent.sub "wheel" 9)
      (by decide)

/-! ## Normalization lemmas for C7 -/

theorem data_slash_append (s : String) : ("/" ++ s).data = '/' :: s.data := by
  rw [String.data_append]
  rfl

theorem stripSlash_slash_append (s : String) : stripSlash ("/" ++ s) = s := by
  have hmk : String.mk s.data = s := rfl
  simp [stripSlash, data_slash_append, hmk]

theorem stripSlash_of_not_slash (s : String) (h : beginsWithSlash s = false) :
    stripSlash s = s := by
  cases hd : s.data with
  | nil => simp [stripSlash, hd]
  | cons c rest =>
      have hc : ¬(c = '/') := by
        intro hc
        subst hc
        simp [beginsWithSlash, hd] at h
      simp [stripSlash, hd, hc]

/-- Claim C7 (amended): one leading `'/'` is stripped by both `subscribe`
and `unsubscribe` before the frame map is consulted, so `"/odom"` and
`"odom"` denote the same entry (for inputs without a doubled slash the two
call forms are literally interchangeable); every key `subscribe` stores is
the normalized id; and a stored key begins with `'/'` only when the input
began with `"//"` — for any input not starting with two slashes, the
normalized key has no leading slash. (The unamended claim's "no key ever
begins with `'/'`" fails for such doubled-slash inputs, see the
counterexample.) -/
theorem claim7_single_slash_stripped (st : TFClient) (frameID : String)
    (cb : Nat) :
    (beginsWithSlash frameID = false →
        subscribe st ("/" ++ frameID) cb = subscribe st frameID cb ∧
        unsubscribe st ("/" ++ frameID) cb = unsubscribe st frameID cb) ∧
    (∀ p ∈ (subscribe st frameID cb).1.frameInfos,
        p ∈ st.frameInfos ∨ p.1 = stripSlash frameID) ∧
    ((∀ rest, frameID.data ≠ '/' :: '/' :: rest) →
        beginsWithSlash (stripSlash frameID) = false) := by
  refine ⟨?_, ?_, ?_⟩
  · intro hns
    have h1 : stripSlash ("/" ++ frameID) = frameID :=
      stripSlash_slash_append frameID
    have h2 : stripSlash frameID = frameID :=
      stripSlash_of_not_slash frameID hns
    constructor
    · simp only [subscribe, h1, h2]
    · simp only [unsubscribe, h1, h2]
  · cases hget : alistGet st.frameInfos (stripSlash frameID) with
    | none =>
        rw [subscribe_not_tracked st frameID cb hget]
        intro p hp
        simp only at hp
        rcases List.mem_append.1 hp with h' | h'
        · exact Or.inl h'
        · simp only [List.mem_singleton] at h'
          right
          rw [h']
    | some info =>
        rw [subscribe_tracked st frameID cb info hget]
        intro p hp
        simp only at hp
        rcases mem_alistSet hp with h' | h'
        · exact Or.inl h'
        · right
          rw [h']
  · intro h
    cases hd : frameID.data with
    | nil => simp [stripSlash, beginsWithSlash, hd]
    | cons c rest =>
        by_cases hc : c = '/'
        · subst hc
          cases rest with
          | nil => simp [stripSlash, beginsWithSlash, hd]
          | cons c2 rest2 =>
              by_cases hc2 : c2 = '/'
              · exact absurd (by rw [hd, hc2]) (h rest2)
              · simp [stripSlash, beginsWithSlash, hd, hc2]
        · simp [stripSlash, beginsWithSlash, hd, hc]

/-- Witness for C7 (amended): `"/odom"` and `"odom"` hit the same entry on
a fresh client, and a single-slash input stores a slash-free key. -/
theorem claim7_witness :
    subscribe (TFClient.create {}) "/odom" 4 =
      subscribe (TFClient.create {}) "odom" 4 ∧
    beginsWithSlash (stripSlash "/odom") = false := by
  constructor
  · exact ((claim7_single_slash_stripped (TFClient.create {}) "odom" 4).1
      (by decide)).1
  · refine (claim7_single_slash_stripped (TFClient.create {}) "/odom" 4).2.2 ?_
    intro rest h
    rw [show ("/odom".data) = ['/', 'o', 'd', 'o', 'm'] from rfl] at h
    simp at h

/-- Counterexample to C7 as stated: the code strips only ONE leading
slash, so subscribing `"//odom"` stores the key `"/odom"`, which begins
with `'/'` — refuting "no key stored in the frame map ever begins with
`'/'`". -/
theorem claim7_counterexample :
    (subscribe (TFClient.create {}) "//odom" 0).1.frameInfos.map Prod.fst =
      ["/odom"] ∧
    beginsWithSlash "/odom" = true := by
  decide

/-- Claim C4 (amended): because `updateGoal` resets `goalUpdateRequested`
to `false` when it sends the aggregate request, a `subscribe` for a
not-yet-tracked frame arriving AFTER the debounce timer has fired — while
the request is in flight or a stream is active — DOES re-arm the timer
(contrary to the original claim), and the next timer fire issues a fresh
aggregate request whose source frames include the newly added frame. -/
theorem claim4_late_subscribe_rearms (st : TFClient) (frameID : String)
    (cb : Nat)
    (hreq : st.goalUpdateRequested = false)
    (hnew : alistGet st.frameInfos (stripSlash frameID) = none) :
    (subscribe st frameID cb).2 = [Effect.scheduleTimer st.goalUpdateDelay] ∧
    (subscribe st frameID cb).1.goalUpdateRequested = true ∧
    (updateGoal (subscribe st frameID cb).1).2 =
      [Effect.sendRequest
        { source_frames := st.frameInfos.map Prod.fst ++ [stripSlash frameID]
          target_frame := st.fixedFrame
          angular_thres := st.angularThres
          trans_thres := st.transThres
          rate := st.rate
          timeout := st.topicTimeout }] := by
  rw [subscribe_not_tracked st frameID cb hnew]
  refine ⟨by simp [hreq], by simp, ?_⟩
  simp [updateGoal]

/-- Witness for C4 (amended): with `"a"` tracked, the request sent and the
stream `"t"` attached, subscribing untracked `"b"` re-arms the timer and
the next fire sends a request naming `["a", "b"]`. -/
theorem claim4_witness :
    (subscribe
        (run (TFClient.create {})
          [TFEvent.sub "a" 0, TFEvent.timerFire, TFEvent.response "t"]).1
        "b" 5).2 = [Effect.scheduleTimer 50] ∧
    (subscribe
        (run (TFClient.create {})
          [TFEvent.sub "a" 0, TFEvent.timerFire, TFEvent.response "t"]).1
        "b" 5).1.goalUpdateRequested = true ∧
    (updateGoal
        (subscribe
          (run (TFClient.create {})
            [TFEvent.sub "a" 0, TFEvent.timerFire, TFEvent.response "t"]).1
          "b" 5).1).2 =
      [Effect.sendRequest
        ⟨["a", "b"], "/base_link", 2, ratPointZeroOne, 10, ⟨2, 0⟩⟩] := by
  exact claim4_late_subscribe_rearms
    (run (TFClient.create {})
      [TFEvent.sub "a" 0, TFEvent.timerFire, TFEvent.response "t"]).1
    "b" 5 (by decide) (by decide)

/-- Counterexample to C4 as stated: a subscribe for a new frame while the
aggregate request is in flight (first trace) or while a stream is active
(second trace) DOES trigger a fresh timer and a fresh aggregate request
(carrying the new frame) — no "other event" is needed. -/
theorem claim4_counterexample :
    (run (TFClient.create {})
        [TFEvent.sub "a" 0, TFEvent.timerFire, TFEvent.sub "b" 1,
         TFEvent.timerFire]).2 =
      [Effect.scheduleTimer 50,
       Effect.sendRequest ⟨["a"], "/base_link", 2, ratPointZeroOne, 10, ⟨2, 0⟩⟩,
       Effect.scheduleTimer 50,
       Effect.sendRequest
         ⟨["a", "b"], "/base_link", 2, ratPointZeroOne, 10, ⟨2, 0⟩⟩] ∧
    (run (TFClient.create {})
        [TFEvent.sub "a" 0, TFEvent.timerFire, TFEvent.response "t",
         TFEvent.sub "b" 1, TFEvent.timerFire]).2 =
      [Effect.scheduleTimer 50,
       Effect.sendRequest ⟨["a"], "/base_link", 2, ratPointZeroOne, 10, ⟨2, 0⟩⟩,
       Effect.topicSubscribe "t",
       Effect.scheduleTimer 50,
       Effect.sendRequest
         ⟨["a", "b"], "/base_link", 2, ratPointZeroOne, 10, ⟨2, 0⟩⟩] := by
  decide

/-- Claim C8: on a default-configured client, `subscribe("/base_link", cb)`
arms the 50 ms debounce timer, and the timer fire issues exactly one
aggregate request with `target_frame="/base_link"`, `angular_thres=2.0`,
`trans_thres=0.01`, `rate=10.0`, `timeout={secs:2, nsecs:0}` and
`source_frames=["base_link"]`. -/
theorem claim8_default_request :
    (run (TFClient.create {}) [TFEvent.sub "/base_link" 0, TFEvent.timerFire]).2 =
      [Effect.scheduleTimer 50,
       Effect.sendRequest
         { source_frames := ["base_link"]
           target_frame := "/base_link"
           angular_thres := 2
           trans_thres := ratPointZeroOne
           rate := 10
           timeout := ⟨2, 0⟩ }] ∧
    ratPointZeroOne = 0.01 ∧ (2 : Rat) = 2.0 ∧ (10 : Rat) = 10.0 := by
  refine ⟨by decide, ratPointZeroOne_eq, by norm_num, by norm_num⟩

/-- Claim C10: each option combined with `||` falls back to its default on
any falsy value — `0` for the numeric options, `""` for `fixedFrame` —
so an all-falsy configuration is indistinguishable from the default one,
and zero thresholds, zero rate, zero delay or zero timeout cannot be
configured. -/
theorem claim10_falsy_options_use_defaults :
    TFClient.create
        { fixedFrame := some "", angularThres := some 0, transThres := some 0,
          rate := some 0, goalUpdateDelay := some 0, topicTimeout := some 0 } =
      TFClient.create {} ∧
    (TFClient.create {}).fixedFrame = "/base_link" ∧
    (TFClient.create {}).angularThres = 2 ∧
    (TFClient.create {}).transThres = ratPointZeroOne ∧
    (TFClient.create {}).rate = 10 ∧
    (TFClient.create {}).goalUpdateDelay = 50 ∧
    (TFClient.create {}).topicTimeout = ⟨2, 0⟩ := by
  decide

end TFSpec
